import Mathlib

/-!
Verification development for the response-decoding core of the
`aiodockerpy` asynchronous Docker client (files `aiodockerpy/api/client.py`
and `aiodockerpy/errors.py`).

Bytes are modelled as `Nat` (each in `0..255` where it matters), byte
strings as `List Nat`.  An aiohttp stream reader over a finished response
is modelled as the list of the bytes still unread: `reader.read(n)`
returns `s.take n` and leaves `s.drop n`, which is the deterministic
behaviour once the whole body has arrived.  An async generator is
modelled by the finite list of the elements it yields when consumed to
the end, together with the way it terminates where that matters.
-/

namespace AioDockerPy

/-- docker.constants.STREAM_HEADER_SIZE_BYTES: size of the multiplexing
frame header. -/
def STREAM_HEADER_SIZE_BYTES : Nat := 8

/-- io.DEFAULT_BUFFER_SIZE in CPython, used by `_stream_helper`. -/
def DEFAULT_BUFFER_SIZE : Nat := 8192

/-- Big-endian unsigned 32-bit value of the four bytes `b4 b5 b6 b7`
(the `L` field of the struct format `>BxxxL`). -/
def beVal4 (b4 b5 b6 b7 : Nat) : Nat :=
  ((b4 * 256 + b5) * 256 + b6) * 256 + b7

/-- Model of `struct.unpack_from('>BxxxL', h)` (and of
`struct.unpack('>BxxxL', h)` on a buffer of exactly 8 bytes): the first
component is byte 0 (the stream tag `B`), the second is the big-endian
uint32 of bytes 4..7 (`L`); bytes 1..3 are the pad bytes `xxx` and are
ignored.  The function is total here; both call sites in the source
guard it so that at least 8 bytes are present (`unpack` raises
`struct.error` otherwise, which the streaming walker models by an
explicit branch). -/
def unpackBxxxLFrom (h : List Nat) : Nat × Nat :=
  (h.getD 0 0, beVal4 (h.getD 4 0) (h.getD 5 0) (h.getD 6 0) (h.getD 7 0))

/-- An HTTP response as the decoding core sees it: a status code and the
full body byte sequence. -/
structure Response where
  status : Nat
  body : List Nat

/-- Model of `_raise_for_status_aiodockerpy`: `response.raise_for_status()`
raises exactly when the status is >= 400, and the raised error is then
converted by `create_api_error_from_http_exception` (modelled separately
below); the payload of the error is elided here. -/
def raiseForStatus (r : Response) : Except Unit Unit :=
  if 400 ≤ r.status then Except.error () else Except.ok ()

/-- Outcome of one call of `APIClient._result(async_response, json, binary)`.
The three value constructors record which collaborator method was invoked
on the successful response (`response.json()`, `response.read()`,
`response.text()`), each carrying the raw body it operates on. -/
inductive ResultOutcome where
  | assertionError
  | raisedApi
  | jsonValue (body : List Nat)
  | bytesValue (body : List Nat)
  | textValue (body : List Nat)
  deriving DecidableEq, Repr

/-- Model of `APIClient._result`:
`assert not (json and binary)` first, then raise-for-status, then exactly
one of `response.json()` / `response.read()` / `response.text()`. -/
def resultRun (r : Response) (json binary : Bool) : ResultOutcome :=
  if json && binary then ResultOutcome.assertionError
  else if 400 ≤ r.status then ResultOutcome.raisedApi
  else if json then ResultOutcome.jsonValue r.body
  else if binary then ResultOutcome.bytesValue r.body
  else ResultOutcome.textValue r.body

/-- Model of the `decode=False` arm of `APIClient._stream_helper`: repeat
`data = await reader.read(1); if not data: break;
data += await reader.read(io.DEFAULT_BUFFER_SIZE); yield data`.
On the deterministic reader a successful 1-byte read takes the head and
the drain takes up to `DEFAULT_BUFFER_SIZE` further bytes. -/
def streamHelperRaw : List Nat → List (List Nat)
  | [] => []
  | b :: rest =>
      (b :: rest.take DEFAULT_BUFFER_SIZE) ::
        streamHelperRaw (rest.drop DEFAULT_BUFFER_SIZE)
  termination_by s => s.length
  decreasing_by
    simp only [List.length_drop, List.length_cons]
    omega

/-- Model of the walking loop of `APIClient._multiplexed_buffer_helper`
on the fully-read body `buf`, with the cursor `walker` represented by
passing the still-unread suffix `buf[walker:]`:
while at least `STREAM_HEADER_SIZE_BYTES` bytes remain, decode the
header with `struct.unpack_from('>BxxxL', ...)`, yield
`buf[walker+8 : walker+8+length]` (Python slicing clamps at the end of
the buffer, as `List.take` does) and move the cursor to `walker+8+length`.
A remainder shorter than a full header ends the loop. -/
def mbufWalk (buf : List Nat) : List (List Nat) :=
  if 8 ≤ buf.length then
    (buf.drop 8).take (unpackBxxxLFrom buf).2 ::
      mbufWalk (buf.drop (8 + (unpackBxxxLFrom buf).2))
  else []
  termination_by buf.length
  decreasing_by
    simp only [List.length_drop]
    omega

/-- Model of the loop of `APIClient._multiplexed_response_stream_helper`
on a live reader holding the byte sequence `s`.  Returns the list of the
yielded chunks together with `true` when the loop ended by raising
`struct.error` (header read returned 1..7 bytes, `struct.unpack` needs
exactly 8) and `false` when it ended by `break` or normal exhaustion:
`header = read(8); if not header: break; tag, length = unpack; if not
length: continue; data = read(length); if not data: break; yield data`. -/
def muxStreamWalk (s : List Nat) : List (List Nat) × Bool :=
  if s.isEmpty then ([], false)
  else if s.length < 8 then ([], true)
  else if (unpackBxxxLFrom s).2 = 0 then muxStreamWalk (s.drop 8)
  else if ((s.drop 8).take (unpackBxxxLFrom s).2).isEmpty then ([], false)
  else
    ((s.drop 8).take (unpackBxxxLFrom s).2 ::
        (muxStreamWalk (s.drop (8 + (unpackBxxxLFrom s).2))).1,
      (muxStreamWalk (s.drop (8 + (unpackBxxxLFrom s).2))).2)
  termination_by s.length
  decreasing_by
    all_goals simp_all [List.isEmpty_iff, List.length_drop]
    all_goals omega

/-- Model of `b''.join(...)`: binary concatenation of a list of byte
strings with the empty separator. -/
def listJoin : List (List Nat) → List Nat
  | [] => []
  | c :: cs => c ++ listJoin cs

/-- Run of `APIClient._stream_raw_result`: raise-for-status, then
`response.content.iter_chunked(1)` yields the body as successive 1-byte
chunks, each passed through `bytes.decode()` to a `str` (the text/bytes
distinction is carried by the `TtyResult` constructor below). -/
def streamRawRun (r : Response) : Except Unit (List (List Nat)) :=
  match raiseForStatus r with
  | Except.error e => Except.error e
  | Except.ok _ => Except.ok (r.body.map (fun b => [b]))

/-- Run of `APIClient._multiplexed_buffer_helper`: the body is obtained
through `self._result(async_response, binary=True)` (which raises for an
error status), then walked by the frame loop. -/
def muxBufferRun (r : Response) : Except Unit (List (List Nat)) :=
  match resultRun r false true with
  | ResultOutcome.bytesValue buf => Except.ok (mbufWalk buf)
  | _ => Except.error ()

/-- Run of `APIClient._multiplexed_response_stream_helper`:
raise-for-status, then the streaming frame loop on `response.content`. -/
def muxStreamRun (r : Response) : Except Unit (List (List Nat) × Bool) :=
  match raiseForStatus r with
  | Except.error e => Except.error e
  | Except.ok _ => Except.ok (muxStreamWalk r.body)

/-- Shape of the value returned by `APIClient._get_result_tty`: either an
awaited `bytes` value, an async generator of `str` chunks, or an async
generator of `bytes` chunks (for the latter, together with the
`struct.error` flag of its run). -/
inductive TtyResult where
  | value (v : Except Unit (List Nat))
  | strStream (run : Except Unit (List (List Nat)))
  | bytesStream (run : Except Unit (List (List Nat) × Bool))

/-- Model of `APIClient._get_result_tty(stream, async_response, is_tty)`:
tty and stream gives `_stream_raw_result`; tty without stream gives
`await self._result(async_response, binary=True)`; no tty and stream
gives `_multiplexed_response_stream_helper`; no tty and no stream gives
`sep.join([x async for x in self._multiplexed_buffer_helper(...)])` with
`sep = b''`. -/
def getResultTty (stream : Bool) (r : Response) (is_tty : Bool) : TtyResult :=
  if is_tty then
    if stream then TtyResult.strStream (streamRawRun r)
    else
      TtyResult.value
        (match resultRun r false true with
         | ResultOutcome.bytesValue b => Except.ok b
         | _ => Except.error ())
  else if stream then TtyResult.bytesStream (muxStreamRun r)
  else TtyResult.value (Except.map listJoin (muxBufferRun r))

/-- The `Config` object of an inspect-container reply, reduced to the one
field the Result Resolver reads. -/
structure ContainerConfig where
  Tty : Bool

/-- An inspect-container reply, reduced to its `Config` member. -/
structure InspectResult where
  Config : ContainerConfig

/-- Model of `APIClient._get_result(container, stream, async_response)`:
`cont = await self.inspect_container(container)` then
`self._get_result_tty(stream, async_response, cont['Config']['Tty'])`.
The inspect-container collaborator is passed in as a function. -/
def getResult (inspect_container : String → InspectResult)
    (container : String) (stream : Bool) (r : Response) : TtyResult :=
  getResultTty stream r (inspect_container container).Config.Tty

/-- A synthetic multiplexing frame: a stream tag byte, three reserved
bytes and a payload. -/
structure Frame where
  tag : Nat
  r1 : Nat
  r2 : Nat
  r3 : Nat
  payload : List Nat
  deriving DecidableEq, Repr

/-- The four big-endian bytes of a uint32 `n`. -/
def beBytes4 (n : Nat) : List Nat :=
  [n / 16777216 % 256, n / 65536 % 256, n / 256 % 256, n % 256]

/-- Wire encoding of one frame: 8-byte header (tag, three reserved
bytes, big-endian uint32 payload length) followed by the payload. -/
def encodeFrame (f : Frame) : List Nat :=
  f.tag :: f.r1 :: f.r2 :: f.r3 :: (beBytes4 f.payload.length ++ f.payload)

/-- Wire encoding of a frame sequence: concatenation of the frames. -/
def encodeFrames : List Frame → List Nat
  | [] => []
  | f :: fs => encodeFrame f ++ encodeFrames fs

/-- Helper for the Python substring operator: does the first list start
with the second? -/
def charsLead : List Char → List Char → Bool
  | _, [] => true
  | [], _ :: _ => false
  | a :: as, b :: bs => a == b && charsLead as bs

/-- Helper for the Python substring operator: does the second list occur
as a contiguous run inside the first? -/
def charsHaveSub : List Char → List Char → Bool
  | [], needle => needle.isEmpty
  | a :: t, needle => charsLead (a :: t) needle || charsHaveSub t needle

/-- Python `needle in hay` on strings: substring containment. -/
def strIn (needle hay : String) : Bool :=
  charsHaveSub hay.toList needle.toList

/-- What `(await response.json())['message']` does on a given error
response, as the mapper in `errors.py` sees it:
`objWithMessage msg` — the body parses as a JSON object carrying a
`message` field with value `msg`;
`okNoMessage` — `response.json()` returns a parsed value but the
`['message']` lookup raises (`KeyError` on an object without the field,
`TypeError` on a non-object), an exception the source does not catch;
`notJsonContentType` — `response.json()` raises
`aiohttp.client.ClientResponseError` because the content type is not
JSON, the one exception the source catches;
`invalidJson` — the content type is JSON but the body does not parse, so
`json.loads` raises a decode error (a `ValueError`, not a
`ClientResponseError`), which the source does not catch. -/
inductive JsonOut where
  | objWithMessage (msg : String)
  | okNoMessage
  | notJsonContentType
  | invalidJson
  deriving DecidableEq, Repr

/-- A failed-or-not HTTP response as `create_api_error_from_http_exception`
sees it: the status, the outcome of the JSON read of the body, and the
decoded body text returned by `await response.text()`. -/
structure ErrResponse where
  status : Nat
  jsonOut : JsonOut
  text : String

/-- Which error class the mapper picks: `docker` generic `APIError`,
`NotFound`, or `ImageNotFound`. -/
inductive ErrorKind where
  | generic
  | notFound
  | imageNotFound
  deriving DecidableEq, Repr

/-- Observable outcome of one call of
`create_api_error_from_http_exception`:
`returned` — the function returns `None` without raising (status < 400);
`apiError kind status explanation` — it raises the typed error of class
`kind`, carrying the numeric status (from the `ClientResponseError`'s
`code`, equal to the response status) and the explanation string;
`uncaught` — an exception other than the typed error escapes
(the `['message']` lookup failure or a JSON decode failure). -/
inductive MapperOutcome where
  | returned
  | apiError (kind : ErrorKind) (status : Nat) (explanation : String)
  | uncaught
  deriving DecidableEq, Repr

/-- The 404 refinement test of the mapper:
`explanation and ('No such image' in str(explanation) or
'not found: does not exist or no pull access' in str(explanation))`,
with Python truthiness of a string being non-emptiness. -/
def imageNotFoundExplanation (explanation : String) : Bool :=
  !explanation.isEmpty &&
    (strIn ("No such image") explanation ||
      strIn ("not found: does not exist or no pull access") explanation)

/-- Class selection of the mapper: `cls = APIError`, refined on a 404 to
`ImageNotFound` or `NotFound` by the explanation test. -/
def classifyStatus (status : Nat) (explanation : String) : ErrorKind :=
  if status = 404 then
    if imageNotFoundExplanation explanation then ErrorKind.imageNotFound
    else ErrorKind.notFound
  else ErrorKind.generic

/-- Python `str.strip()` with no argument: drop whitespace characters
from both ends of the string. -/
def pyStrip (s : String) : String :=
  String.mk
    (((s.data.dropWhile Char.isWhitespace).reverse.dropWhile
        Char.isWhitespace).reverse)

/-- Model of `create_api_error_from_http_exception(e, response)`:
return `None` when the status is < 400; otherwise take the explanation
from the JSON body's `message` field, falling back to the stripped body
text when the JSON read raises `ClientResponseError`; classify; raise. -/
def createApiErrorFromHttpException (r : ErrResponse) : MapperOutcome :=
  if r.status < 400 then MapperOutcome.returned
  else
    match r.jsonOut with
    | JsonOut.objWithMessage msg =>
        MapperOutcome.apiError (classifyStatus r.status msg) r.status msg
    | JsonOut.okNoMessage => MapperOutcome.uncaught
    | JsonOut.invalidJson => MapperOutcome.uncaught
    | JsonOut.notJsonContentType =>
        MapperOutcome.apiError (classifyStatus r.status (pyStrip r.text))
          r.status (pyStrip r.text)

/-- The fields of `APIError` read by `__str__`, `is_client_error` and
`is_server_error`: `code` and `message` come from the
`aiohttp.ClientResponseError` the instance was built from (`code` is the
numeric HTTP status, possibly `None`; `message` the reason phrase), and
`explanation` is the string computed by the mapper, possibly `None`. -/
structure APIErrorModel where
  code : Option Nat
  message : String
  explanation : Option String

/-- Model of `APIError.is_client_error`: `code` is not `None` and lies in
`[400, 500)`. -/
def isClientError (e : APIErrorModel) : Bool :=
  match e.code with
  | none => false
  | some c => decide (400 ≤ c) && decide (c < 500)

/-- Model of `APIError.is_server_error`: `code` is not `None` and lies in
`[500, 600)`. -/
def isServerError (e : APIErrorModel) : Bool :=
  match e.code with
  | none => false
  | some c => decide (500 ≤ c) && decide (c < 600)

/-- Python `str(self.code)` as used by `'{0} ...'.format(self.code, ...)`
inside the truthy branches (where `code` is an int). -/
def codeStr (e : APIErrorModel) : String :=
  match e.code with
  | none => "None"
  | some c => toString c

/-- Model of `APIError.__str__`: start from the superclass rendering,
replace it with the Client/Server composed form when the code is in the
matching range, then append the quoted explanation when that is truthy
(not `None` and non-empty). -/
def apiErrorStr (e : APIErrorModel) (superStr : String) : String :=
  let base :=
    if isClientError e then codeStr e ++ " Client Error: " ++ e.message
    else if isServerError e then codeStr e ++ " Server Error: " ++ e.message
    else superStr
  match e.explanation with
  | none => base
  | some ex => if ex.isEmpty then base else base ++ " (\"" ++ ex ++ "\")"

/-- The suffix `__str__` appends for a truthy explanation, and the empty
string otherwise. -/
def explSuffix : Option String → String
  | none => ""
  | some ex => if ex.isEmpty then "" else " (\"" ++ ex ++ "\")"

/-! Helper lemmas about the walkers and the frame encoding. -/

/-- A remainder shorter than a full header ends the buffered walk at
once. -/
theorem mbufWalk_nil_of_short (l : List Nat) (h : l.length < 8) :
    mbufWalk l = [] := by
  rw [mbufWalk]
  simp [Nat.not_le.mpr h]

/-- The byte layout of one encoded frame in front of a remainder. -/
theorem encodeFrame_eq (f : Frame) (rest : List Nat) :
    encodeFrame f ++ rest =
      [f.tag, f.r1, f.r2, f.r3, f.payload.length / 16777216 % 256,
        f.payload.length / 65536 % 256, f.payload.length / 256 % 256,
        f.payload.length % 256] ++ (f.payload ++ rest) := by
  simp [encodeFrame, beBytes4]

/-- Decoding the header of an encoded frame recovers the payload length
whenever the length fits in 32 bits. -/
theorem unpack_encodeFrame (f : Frame) (rest : List Nat)
    (h : f.payload.length < 4294967296) :
    (unpackBxxxLFrom (encodeFrame f ++ rest)).2 = f.payload.length := by
  rw [encodeFrame_eq]
  simp [unpackBxxxLFrom, beVal4]
  omega

/-- Dropping the 8 header bytes of an encoded frame leaves the payload
followed by the remainder. -/
theorem drop8_encodeFrame (f : Frame) (rest : List Nat) :
    (encodeFrame f ++ rest).drop 8 = f.payload ++ rest := by
  rw [encodeFrame_eq]
  exact List.drop_left' (by simp)

/-- One step of the buffered walk over an encoded frame: it yields the
payload and continues on the remainder. -/
theorem mbufWalk_cons_frame (f : Frame) (rest : List Nat)
    (h : f.payload.length < 4294967296) :
    mbufWalk (encodeFrame f ++ rest) = f.payload :: mbufWalk rest := by
  rw [mbufWalk]
  rw [if_pos]
  · congr 1
    · rw [unpack_encodeFrame f rest h, drop8_encodeFrame]
      exact List.take_left f.payload rest
    · congr 1
      rw [unpack_encodeFrame f rest h]
      rw [← List.drop_drop, drop8_encodeFrame]
      exact List.drop_left f.payload rest
  · rw [encodeFrame_eq]
    simp

/-- The buffered walk over a whole encoded frame sequence, tolerating up
to 7 trailing bytes, yields exactly the payloads in order. -/
theorem mbufWalk_encodeFrames (fs : List Frame) (extra : List Nat)
    (hlen : ∀ f ∈ fs, f.payload.length < 4294967296)
    (hextra : extra.length < 8) :
    mbufWalk (encodeFrames fs ++ extra) = fs.map Frame.payload := by
  induction fs with
  | nil => simpa [encodeFrames] using mbufWalk_nil_of_short extra hextra
  | cons f fs ih =>
      have h1 : encodeFrames (f :: fs) ++ extra =
          encodeFrame f ++ (encodeFrames fs ++ extra) := by
        simp [encodeFrames]
      rw [h1, mbufWalk_cons_frame f _ (hlen f (by simp))]
      simp only [List.map_cons]
      rw [ih (fun g hg => hlen g (by simp [hg]))]

/-- The streaming walk on an exhausted source terminates cleanly. -/
theorem muxStreamWalk_nil : muxStreamWalk [] = ([], false) := by
  rw [muxStreamWalk]
  simp

/-- One step of the streaming walk over a zero-length encoded frame: the
`continue` branch yields nothing and moves on. -/
theorem muxStreamWalk_cons_frame_zero (f : Frame) (rest : List Nat)
    (h : f.payload = []) :
    muxStreamWalk (encodeFrame f ++ rest) = muxStreamWalk rest := by
  rw [muxStreamWalk]
  have hu : (unpackBxxxLFrom (encodeFrame f ++ rest)).2 = 0 := by
    rw [unpack_encodeFrame f rest (by simp [h])]
    simp [h]
  rw [if_neg, if_neg, if_pos hu, drop8_encodeFrame]
  · simp [h]
  · rw [encodeFrame_eq]; simp
  · rw [encodeFrame_eq]; simp

/-- One step of the streaming walk over an encoded frame with a
non-empty payload: it yields the payload and continues on the
remainder. -/
theorem muxStreamWalk_cons_frame_pos (f : Frame) (rest : List Nat)
    (hne : f.payload ≠ [])
    (hlt : f.payload.length < 4294967296) :
    muxStreamWalk (encodeFrame f ++ rest) =
      (f.payload :: (muxStreamWalk rest).1, (muxStreamWalk rest).2) := by
  rw [muxStreamWalk]
  have hu : (unpackBxxxLFrom (encodeFrame f ++ rest)).2 = f.payload.length :=
    unpack_encodeFrame f rest hlt
  have hdata : ((encodeFrame f ++ rest).drop 8).take
      (unpackBxxxLFrom (encodeFrame f ++ rest)).2 = f.payload := by
    rw [hu, drop8_encodeFrame]
    exact List.take_left f.payload rest
  have hdrop : (encodeFrame f ++ rest).drop
      (8 + (unpackBxxxLFrom (encodeFrame f ++ rest)).2) = rest := by
    rw [hu, ← List.drop_drop, drop8_encodeFrame]
    exact List.drop_left f.payload rest
  rw [if_neg, if_neg, if_neg, if_neg]
  · rw [hdata, hdrop]
  · rw [hdata]
    simpa using hne
  · rw [hu]
    simpa using hne
  · rw [encodeFrame_eq]; simp
  · rw [encodeFrame_eq]; simp

/-- Every chunk of the chunked reader is non-empty, by strong induction
on the length of the source. -/
theorem streamHelperRaw_chunks_ne_nil :
    ∀ (n : Nat) (s : List Nat), s.length ≤ n →
      ∀ c ∈ streamHelperRaw s, c ≠ [] := by
  intro n
  induction n with
  | zero =>
      intro s hs c hc
      have : s = [] := List.length_eq_zero.mp (Nat.le_zero.mp hs)
      subst this
      simp [streamHelperRaw] at hc
  | succ n ih =>
      intro s hs c hc
      match s with
      | [] => simp [streamHelperRaw] at hc
      | b :: rest =>
          rw [streamHelperRaw] at hc
          rcases List.mem_cons.mp hc with h | h
          · subst h
            simp
          · exact ih (rest.drop DEFAULT_BUFFER_SIZE)
              (by simp at hs ⊢; omega) c h

/-! Claim theorems. -/

/-- C1: for every response (on the success path, status < 400) and every
combination of the booleans (stream, tty), `_get_result_tty` returns the
shape of the 4.5 dispatch table: stream=false, tty=true gives the
fully-read raw binary body; stream=true, tty=true gives the lazy
sequence of text-decoded raw chunks; stream=false, tty=false gives the
binary concatenation of all buffered-mode demultiplexed payloads;
stream=true, tty=false gives the streaming-mode demultiplexed lazy
sequence; and `_get_result` obtains the tty flag solely from the
inspect-container collaborator's `Config.Tty` field. -/
theorem c1_result_resolver_dispatch (r : Response) (h : r.status < 400) :
    getResultTty false r true = TtyResult.value (Except.ok r.body) ∧
    getResultTty true r true =
      TtyResult.strStream (Except.ok (r.body.map (fun b => [b]))) ∧
    getResultTty false r false =
      TtyResult.value (Except.ok (listJoin (mbufWalk r.body))) ∧
    getResultTty true r false =
      TtyResult.bytesStream (Except.ok (muxStreamWalk r.body)) ∧
    ∀ (ic : String → InspectResult) (container : String) (stream : Bool),
      getResult ic container stream r =
        getResultTty stream r (ic container).Config.Tty := by
  have hn : ¬ 400 ≤ r.status := Nat.not_le.mpr h
  refine ⟨?_, ?_, ?_, ?_, ?_⟩ <;>
    simp [getResultTty, getResult, resultRun, raiseForStatus, streamRawRun,
      muxBufferRun, muxStreamRun, Except.map, hn]

/-- Witness for C1 at a concrete successful response. -/
theorem c1_result_resolver_dispatch_witness :
    getResultTty false ⟨200, [0, 1]⟩ false =
      TtyResult.value (Except.ok (listJoin (mbufWalk [0, 1]))) ∧
    getResultTty false ⟨200, [0, 1]⟩ true = TtyResult.value (Except.ok [0, 1]) := by
  exact ⟨(c1_result_resolver_dispatch ⟨200, [0, 1]⟩ (by decide)).2.2.1,
    (c1_result_resolver_dispatch ⟨200, [0, 1]⟩ (by decide)).1⟩

/-- C2: for every buffer formed by concatenating N frames, each an
8-byte header (any tag byte, any three reserved bytes, big-endian
uint32 length equal to the payload length, with payloads of at most
65536 bytes) followed by its payload, buffered-mode demultiplex
(`_multiplexed_buffer_helper`) yields exactly the N payloads in their
original order, the binary concatenation of the yields — the
stream=false, tty=false result of `_get_result_tty` — equals the
concatenation of the payloads, and appending 0 to 7 extra trailing
bytes after the last full frame changes nothing: same N payloads, no
error, no extra element. -/
theorem c2_demux_roundtrip (fs : List Frame) (extra : List Nat) (r : Response)
    (hlen : ∀ f ∈ fs, f.payload.length ≤ 65536)
    (hextra : extra.length < 8)
    (hstatus : r.status < 400)
    (hbody : r.body = encodeFrames fs ++ extra) :
    mbufWalk r.body = fs.map Frame.payload ∧
    getResultTty false r false =
      TtyResult.value (Except.ok (listJoin (fs.map Frame.payload))) := by
  have h1 : mbufWalk r.body = fs.map Frame.payload := by
    rw [hbody]
    exact mbufWalk_encodeFrames fs extra
      (fun f hf => lt_of_le_of_lt (hlen f hf) (by norm_num)) hextra
  refine ⟨h1, ?_⟩
  simp [getResultTty, muxBufferRun, resultRun, Except.map,
    Nat.not_le.mpr hstatus, h1]

/-- Witness for C2 at two concrete frames with three trailing bytes. -/
theorem c2_demux_roundtrip_witness :
    mbufWalk (encodeFrames [⟨1, 0, 0, 0, [104, 105]⟩, ⟨2, 255, 0, 7, [33]⟩]
        ++ [9, 9, 9]) = [[104, 105], [33]] ∧
    getResultTty false
        ⟨200, encodeFrames [⟨1, 0, 0, 0, [104, 105]⟩, ⟨2, 255, 0, 7, [33]⟩]
          ++ [9, 9, 9]⟩ false =
      TtyResult.value (Except.ok [104, 105, 33]) := by
  have h := c2_demux_roundtrip
    [⟨1, 0, 0, 0, [104, 105]⟩, ⟨2, 255, 0, 7, [33]⟩] [9, 9, 9]
    ⟨200, encodeFrames [⟨1, 0, 0, 0, [104, 105]⟩, ⟨2, 255, 0, 7, [33]⟩]
      ++ [9, 9, 9]⟩
    (by decide) (by decide) (by decide) rfl
  constructor
  · simpa using h.1
  · have h2 := h.2
    simpa [listJoin] using h2

/-- C3 counterexample: the claim says a zero-length frame between two
payload-bearing frames produces zero output elements (no empty chunk)
in buffered mode too, but `_multiplexed_buffer_helper` has no
zero-length guard: on the concrete buffer encoding the frames with
payloads [97], [] and [98] it yields three chunks, the middle one
empty, not the two chunks the claim predicts. -/
theorem c3_zero_length_frame_counterexample :
    mbufWalk (encodeFrames
        [⟨1, 0, 0, 0, [97]⟩, ⟨1, 0, 0, 0, []⟩, ⟨1, 0, 0, 0, [98]⟩]) =
      [[97], [], [98]] ∧
    mbufWalk (encodeFrames
        [⟨1, 0, 0, 0, [97]⟩, ⟨1, 0, 0, 0, []⟩, ⟨1, 0, 0, 0, [98]⟩]) ≠
      [[97], [98]] := by
  have h : mbufWalk (encodeFrames
      [⟨1, 0, 0, 0, [97]⟩, ⟨1, 0, 0, 0, []⟩, ⟨1, 0, 0, 0, [98]⟩]) =
      [[97], [], [98]] := by
    have e : encodeFrames
        [(⟨1, 0, 0, 0, [97]⟩ : Frame), ⟨1, 0, 0, 0, []⟩, ⟨1, 0, 0, 0, [98]⟩] =
        [1, 0, 0, 0, 0, 0, 0, 1, 97, 1, 0, 0, 0, 0, 0, 0, 0,
          1, 0, 0, 0, 0, 0, 0, 1, 98] := by
      simp [encodeFrames, encodeFrame, beBytes4]
    rw [e]
    simp [mbufWalk, unpackBxxxLFrom, beVal4]
    decide
  exact ⟨h, by rw [h]; decide⟩

/-- C3 (amended): for every frame with length=0 between two
payload-bearing frames, streaming-mode demultiplexing
(`_multiplexed_response_stream_helper`) produces zero output elements
for the zero-length frame while still yielding the surrounding payloads
correctly; buffered-mode demultiplexing (`_multiplexed_buffer_helper`)
also yields the surrounding payloads correctly but emits one empty
chunk for the zero-length frame. -/
theorem c3_zero_length_frame_amended (f1 f0 f2 : Frame)
    (h0 : f0.payload = [])
    (h1 : f1.payload ≠ []) (h2 : f2.payload ≠ [])
    (hl1 : f1.payload.length ≤ 65536) (hl2 : f2.payload.length ≤ 65536) :
    muxStreamWalk (encodeFrames [f1, f0, f2]) =
      ([f1.payload, f2.payload], false) ∧
    mbufWalk (encodeFrames [f1, f0, f2]) = [f1.payload, [], f2.payload] := by
  constructor
  · have e : encodeFrames [f1, f0, f2] =
        encodeFrame f1 ++ (encodeFrame f0 ++ (encodeFrame f2 ++ [])) := by
      simp [encodeFrames]
    rw [e, muxStreamWalk_cons_frame_pos f1 _ h1 (by omega),
      muxStreamWalk_cons_frame_zero f0 _ h0,
      muxStreamWalk_cons_frame_pos f2 _ h2 (by omega)]
    simp [muxStreamWalk_nil]
  · have h := mbufWalk_encodeFrames [f1, f0, f2] []
      (by
        intro f hf
        simp at hf
        rcases hf with hf | hf | hf <;> subst hf
        · omega
        · simp [h0]
        · omega)
      (by simp)
    simpa [h0] using h

/-- Witness for C3 (amended) at three concrete frames. -/
theorem c3_zero_length_frame_witness :
    muxStreamWalk (encodeFrames
        [⟨1, 0, 0, 0, [97]⟩, ⟨7, 1, 2, 3, []⟩, ⟨2, 0, 0, 0, [98, 99]⟩]) =
      ([[97], [98, 99]], false) ∧
    mbufWalk (encodeFrames
        [⟨1, 0, 0, 0, [97]⟩, ⟨7, 1, 2, 3, []⟩, ⟨2, 0, 0, 0, [98, 99]⟩]) =
      [[97], [], [98, 99]] := by
  have h := c3_zero_length_frame_amended
    ⟨1, 0, 0, 0, [97]⟩ ⟨7, 1, 2, 3, []⟩ ⟨2, 0, 0, 0, [98, 99]⟩
    rfl (by decide) (by decide) (by decide) (by decide)
  simpa using h

/-- C4 counterexample: the claim says that when the payload read returns
fewer bytes than the header's declared length the sequence terminates
yielding no further elements after that point; but
`_multiplexed_response_stream_helper` breaks only on an empty read
(`if not data: break`), so a header declaring 5 bytes followed by only
3 bytes makes the generator yield the 3-byte partial payload — the
yielded sequence is not empty. -/
theorem c4_premature_close_counterexample :
    (muxStreamWalk [1, 0, 0, 0, 0, 0, 0, 5, 97, 98, 99]).1 ≠ [] := by
  have h : muxStreamWalk [1, 0, 0, 0, 0, 0, 0, 5, 97, 98, 99] =
      ([[97, 98, 99]], false) := by
    simp [muxStreamWalk, unpackBxxxLFrom, beVal4]
  rw [h]
  decide

/-- C4 (amended): in streaming-mode demultiplexing, for every source: if
the header read returns zero bytes the sequence terminates cleanly; and
when the header declares more payload bytes than remain (premature
close), the sequence terminates without error — yielding nothing more
if the payload read returns zero bytes, and yielding exactly the
partial payload as the final element if it returns a nonzero short
read. -/
theorem c4_stream_termination_amended :
    muxStreamWalk [] = ([], false) ∧
    ∀ (s : List Nat), 8 ≤ s.length →
      0 < (unpackBxxxLFrom s).2 →
      (s.drop 8).length < (unpackBxxxLFrom s).2 →
      (s.drop 8 = [] → muxStreamWalk s = ([], false)) ∧
      (s.drop 8 ≠ [] → muxStreamWalk s = ([s.drop 8], false)) := by
  refine ⟨muxStreamWalk_nil, ?_⟩
  intro s h8 hpos hover
  have hne : ¬ s.isEmpty = true := by
    simp [List.isEmpty_iff]
    intro hs
    rw [hs] at h8
    simp at h8
  have hlt : ¬ s.length < 8 := Nat.not_lt.mpr h8
  have hdata : (s.drop 8).take (unpackBxxxLFrom s).2 = s.drop 8 :=
    List.take_of_length_le (le_of_lt hover)
  have hdropall : s.drop (8 + (unpackBxxxLFrom s).2) = [] := by
    rw [← List.drop_drop]
    exact List.drop_eq_nil_of_le (le_of_lt hover)
  constructor
  · intro hnil
    rw [muxStreamWalk, if_neg hne, if_neg hlt,
      if_neg (Nat.pos_iff_ne_zero.mp hpos), if_pos]
    rw [hdata, hnil]
    simp
  · intro hnn
    rw [muxStreamWalk, if_neg hne, if_neg hlt,
      if_neg (Nat.pos_iff_ne_zero.mp hpos), if_neg]
    · rw [hdata, hdropall, muxStreamWalk_nil]
    · rw [hdata]
      simpa using hnn

/-- Witness for C4 (amended) at a concrete prematurely-closed source. -/
theorem c4_stream_termination_witness :
    muxStreamWalk [1, 0, 0, 0, 0, 0, 0, 5, 97, 98, 99] =
      ([[97, 98, 99]], false) := by
  have h := (c4_stream_termination_amended.2 [1, 0, 0, 0, 0, 0, 0, 5, 97, 98, 99]
    (by decide) (by decide) (by decide)).2 (by decide)
  simpa using h

/-- C5: for every 8-byte header, the decoded (tag, length) pair of the
`>BxxxL` unpacking used by both demultiplexers satisfies: the tag equals
byte 0, the length equals the big-endian unsigned 32-bit interpretation
of bytes 4..7, and the result is the same whatever the three reserved
bytes 1..3 are. -/
theorem c5_header_decode (b0 b1 b2 b3 b4 b5 b6 b7 : Nat) :
    unpackBxxxLFrom [b0, b1, b2, b3, b4, b5, b6, b7] =
      (b0, beVal4 b4 b5 b6 b7) ∧
    ∀ c1 c2 c3 : Nat,
      unpackBxxxLFrom [b0, c1, c2, c3, b4, b5, b6, b7] =
        unpackBxxxLFrom [b0, b1, b2, b3, b4, b5, b6, b7] := by
  constructor
  · simp [unpackBxxxLFrom]
  · intro c1 c2 c3
    simp [unpackBxxxLFrom]

/-- C6 counterexample: the claim says every status >= 400 other than 404
yields a generic APIError, but when the body parses as JSON without a
`message` field the `['message']` lookup in
`create_api_error_from_http_exception` raises an uncaught exception
(only `aiohttp.client.ClientResponseError` is caught), so a 500
response with such a body produces no typed APIError at all. -/
theorem c6_error_mapper_counterexample :
    createApiErrorFromHttpException ⟨500, JsonOut.okNoMessage, "boom"⟩ =
      MapperOutcome.uncaught ∧
    MapperOutcome.uncaught ≠
      MapperOutcome.apiError ErrorKind.generic 500 "boom" := by
  constructor
  · rfl
  · decide

/-- C6 (amended): `create_api_error_from_http_exception` raises if and
only if the status is >= 400 (status < 400 returns without raising);
the explanation is the JSON body's `message` field when the body parses
as a JSON object carrying one, or the stripped raw decoded text when
the JSON read raises the content-type `ClientResponseError`; when the
JSON parses without a usable `message` field, or fails to decode under
a JSON content type, that exception propagates instead of a typed
error; the typed error carries the numeric status and the explanation,
classified as ImageNotFound on a 404 whose non-empty explanation
contains one of the two image substrings, NotFound on any other 404,
and a generic APIError on any other status >= 400. -/
theorem c6_error_mapper_amended (r : ErrResponse) (msg : String) :
    (r.status < 400 → createApiErrorFromHttpException r = MapperOutcome.returned) ∧
    (400 ≤ r.status → createApiErrorFromHttpException r ≠ MapperOutcome.returned) ∧
    (400 ≤ r.status → r.jsonOut = JsonOut.objWithMessage msg →
      createApiErrorFromHttpException r =
        MapperOutcome.apiError (classifyStatus r.status msg) r.status msg) ∧
    (400 ≤ r.status → r.jsonOut = JsonOut.notJsonContentType →
      createApiErrorFromHttpException r =
        MapperOutcome.apiError (classifyStatus r.status (pyStrip r.text))
          r.status (pyStrip r.text)) ∧
    (400 ≤ r.status →
      (r.jsonOut = JsonOut.okNoMessage ∨ r.jsonOut = JsonOut.invalidJson) →
      createApiErrorFromHttpException r = MapperOutcome.uncaught) ∧
    (imageNotFoundExplanation msg = true →
      classifyStatus 404 msg = ErrorKind.imageNotFound) ∧
    (imageNotFoundExplanation msg = false →
      classifyStatus 404 msg = ErrorKind.notFound) ∧
    (∀ st : Nat, st ≠ 404 → classifyStatus st msg = ErrorKind.generic) ∧
    (msg ≠ "" → strIn ("No such image") msg = true →
      imageNotFoundExplanation msg = true) ∧
    (msg ≠ "" → strIn ("not found: does not exist or no pull access") msg = true →
      imageNotFoundExplanation msg = true) := by
  have hnot : ∀ h : 400 ≤ r.status, ¬ r.status < 400 := fun h => Nat.not_lt.mpr h
  have hie : msg ≠ "" → msg.isEmpty = false := by
    intro hne
    cases he : msg.isEmpty
    · rfl
    · exact absurd ((String.isEmpty_iff msg).mp he) hne
  refine ⟨?_, ?_, ?_, ?_, ?_, ?_, ?_, ?_, ?_, ?_⟩
  · intro h
    simp [createApiErrorFromHttpException, h]
  · intro h
    simp only [createApiErrorFromHttpException, if_neg (hnot h)]
    cases hj : r.jsonOut <;> simp
  · intro h hj
    simp [createApiErrorFromHttpException, if_neg (hnot h), hj]
  · intro h hj
    simp [createApiErrorFromHttpException, if_neg (hnot h), hj]
  · intro h hj
    rcases hj with hj | hj <;>
      simp [createApiErrorFromHttpException, if_neg (hnot h), hj]
  · intro h
    simp [classifyStatus, h]
  · intro h
    simp [classifyStatus, h]
  · intro st hst
    simp [classifyStatus, hst]
  · intro hne hsub
    simp [imageNotFoundExplanation, hsub, hie hne]
  · intro hne hsub
    simp [imageNotFoundExplanation, hsub, hie hne]

/-- Witness for C6 (amended) at concrete responses: an image-not-found
404, a text-body 404, a generic 500 and a non-raising 307. -/
theorem c6_error_mapper_witness :
    createApiErrorFromHttpException
        ⟨404, JsonOut.objWithMessage ("No such image: foo"), ""⟩ =
      MapperOutcome.apiError ErrorKind.imageNotFound 404 ("No such image: foo") ∧
    createApiErrorFromHttpException ⟨404, JsonOut.notJsonContentType, " gone "⟩ =
      MapperOutcome.apiError ErrorKind.notFound 404 ("gone") ∧
    createApiErrorFromHttpException ⟨500, JsonOut.objWithMessage ("err"), "x"⟩ =
      MapperOutcome.apiError ErrorKind.generic 500 ("err") ∧
    createApiErrorFromHttpException ⟨307, JsonOut.invalidJson, "x"⟩ =
      MapperOutcome.returned := by
  refine ⟨?_, ?_, ?_, ?_⟩
  · have h := (c6_error_mapper_amended
      ⟨404, JsonOut.objWithMessage ("No such image: foo"), ""⟩
      ("No such image: foo")).2.2.1 (by decide) rfl
    rw [h]
    have hcl := (c6_error_mapper_amended
      ⟨404, JsonOut.objWithMessage ("No such image: foo"), ""⟩
      ("No such image: foo")).2.2.2.2.2.1 (by decide)
    rw [hcl]
  · have h := (c6_error_mapper_amended
      ⟨404, JsonOut.notJsonContentType, " gone "⟩ "").2.2.2.1 (by decide) rfl
    rw [h]
    have ht : pyStrip (" gone ") = "gone" := by decide
    rw [ht]
    have hcl := (c6_error_mapper_amended
      ⟨404, JsonOut.notJsonContentType, " gone "⟩
      ("gone")).2.2.2.2.2.2.1 (by decide)
    rw [hcl]
  · have h := (c6_error_mapper_amended
      ⟨500, JsonOut.objWithMessage ("err"), "x"⟩ ("err")).2.2.1 (by decide) rfl
    rw [h]
    have hcl := (c6_error_mapper_amended
      ⟨500, JsonOut.objWithMessage ("err"), "x"⟩
      ("err")).2.2.2.2.2.2.2.1 500 (by decide)
    rw [hcl]
  · exact (c6_error_mapper_amended ⟨307, JsonOut.invalidJson, "x"⟩ "").1 (by decide)

/-- C7: for every source, each element of the chunked-reader sequence
(`_stream_helper` with decode=false) is the blocking first byte followed
by the drained immediately-available bytes up to the default buffer
size, so every yielded chunk is non-empty, and the sequence terminates
— yields no element at all once the source is exhausted — exactly when
the first-byte read returns nothing. -/
theorem c7_chunked_reader (s : List Nat) :
    (streamHelperRaw s = [] ↔ s = []) ∧
    (∀ c ∈ streamHelperRaw s, c ≠ []) ∧
    (∀ (b : Nat) (rest : List Nat),
      streamHelperRaw (b :: rest) =
        (b :: rest.take DEFAULT_BUFFER_SIZE) ::
          streamHelperRaw (rest.drop DEFAULT_BUFFER_SIZE)) := by
  refine ⟨?_, streamHelperRaw_chunks_ne_nil s.length s le_rfl, ?_⟩
  · constructor
    · intro h
      match s with
      | [] => rfl
      | b :: rest => rw [streamHelperRaw] at h; simp at h
    · intro h
      subst h
      rw [streamHelperRaw]
  · intro b rest
    rw [streamHelperRaw]

/-- Witness for C7 at a concrete two-byte source. -/
theorem c7_chunked_reader_witness :
    (streamHelperRaw [1, 2] = [] ↔ ([1, 2] : List Nat) = []) ∧
    ([1, 2] : List Nat) ≠ [] := by
  refine ⟨(c7_chunked_reader [1, 2]).1, ?_⟩
  have hmem : [1, 2] ∈ streamHelperRaw [1, 2] := by
    simp [streamHelperRaw, DEFAULT_BUFFER_SIZE]
  exact (c7_chunked_reader [1, 2]).2.1 [1, 2] hmem

/-- C8: for every APIError whose code is a status in [400, 600), the
string rendering is the code followed by " Client Error: " and the
reason for 400 <= code < 500, and by " Server Error: " and the reason
for 500 <= code < 600, with the quoted explanation appended exactly
when the explanation is present and non-empty; in particular for status
500 the rendering starts with "500 Server Error:". -/
theorem c8_api_error_str (e : APIErrorModel) (superStr : String) (c : Nat)
    (hc : e.code = some c) (hlo : 400 ≤ c) (hhi : c < 600) :
    apiErrorStr e superStr =
      (toString c ++
        (if c < 500 then " Client Error: " else " Server Error: ") ++
        e.message) ++ explSuffix e.explanation ∧
    (e.explanation = none → explSuffix e.explanation = "") ∧
    (∀ ex, e.explanation = some ex → ex = "" →
      explSuffix e.explanation = "") ∧
    (∀ ex, e.explanation = some ex → ex ≠ "" →
      explSuffix e.explanation = " (\"" ++ ex ++ "\")") ∧
    (c = 500 → ∃ rest, apiErrorStr e superStr = "500 Server Error:" ++ rest) := by
  have hie : ∀ s : String, s ≠ "" → s.isEmpty = false := by
    intro s hne
    cases he : s.isEmpty
    · rfl
    · exact absurd ((String.isEmpty_iff s).mp he) hne
  have hbase : apiErrorStr e superStr =
      (toString c ++
        (if c < 500 then " Client Error: " else " Server Error: ") ++
        e.message) ++ explSuffix e.explanation := by
    by_cases h5 : c < 500
    · have hcl : isClientError e = true := by
        simp [isClientError, hc, hlo, h5]
      simp only [apiErrorStr, hcl, if_pos, codeStr, hc, explSuffix, h5, if_true]
      cases hex : e.explanation with
      | none => simp
      | some ex =>
          by_cases hee : ex.isEmpty
          · simp [hee]
          · simp [hee]
            simp [String.append_assoc]
    · have hcl : isClientError e = false := by
        simp [isClientError, hc]
        omega
      have hsv : isServerError e = true := by
        simp [isServerError, hc]
        omega
      simp only [apiErrorStr, hcl, hsv, if_false, if_true, Bool.false_eq_true,
        codeStr, hc, explSuffix, h5]
      cases hex : e.explanation with
      | none => simp
      | some ex =>
          by_cases hee : ex.isEmpty
          · simp [hee]
          · simp [hee]
            simp [String.append_assoc]
  refine ⟨hbase, ?_, ?_, ?_, ?_⟩
  · intro h
    simp [explSuffix, h]
  · intro ex h hee
    subst hee
    simp [explSuffix, h]
    decide
  · intro ex h hee
    simp [explSuffix, h, hie ex hee]
  · intro h500
    subst h500
    refine ⟨" " ++ e.message ++ explSuffix e.explanation, ?_⟩
    rw [hbase]
    simp only [if_neg (by omega : ¬ (500 : Nat) < 500)]
    have h5 : (toString (500 : Nat)) = "500" := by decide
    rw [h5]
    simp [String.append_assoc]
    rfl

/-- Witness for C8 at a concrete client error with explanation and a
concrete server error without one. -/
theorem c8_api_error_str_witness :
    apiErrorStr ⟨some 404, "Not Found", some ("nope")⟩ "zzz" =
      "404 Client Error: Not Found (\"nope\")" ∧
    apiErrorStr ⟨some 500, "Internal Server Error", none⟩ "zzz" =
      "500 Server Error: Internal Server Error" := by
  constructor
  · have h := (c8_api_error_str ⟨some 404, "Not Found", some ("nope")⟩ "zzz" 404
      rfl (by decide) (by decide)).1
    rw [h]
    decide
  · have h := (c8_api_error_str ⟨some 500, "Internal Server Error", none⟩ "zzz"
      500 rfl (by decide) (by decide)).1
    rw [h]
    decide

/-- C9: `_result` asserts that json and binary are not both true (every
such call fails the assertion), and under that precondition every
successful response (status < 400) produces exactly one result variant:
the parsed JSON value when json=true, the raw byte body when
binary=true, and the decoded text otherwise. -/
theorem c9_result_modes (r : Response) (j b : Bool) :
    (j = true → b = true → resultRun r j b = ResultOutcome.assertionError) ∧
    (r.status < 400 →
      (j = true → b = false → resultRun r j b = ResultOutcome.jsonValue r.body) ∧
      (j = false → b = true → resultRun r j b = ResultOutcome.bytesValue r.body) ∧
      (j = false → b = false → resultRun r j b = ResultOutcome.textValue r.body)) := by
  constructor
  · intro hj hb
    simp [resultRun, hj, hb]
  · intro hs
    have hn : ¬ 400 ≤ r.status := Nat.not_le.mpr hs
    refine ⟨?_, ?_, ?_⟩ <;> intro hj hb <;> simp [resultRun, hj, hb, hn]

/-- Witness for C9 at a concrete successful response under all four flag
combinations. -/
theorem c9_result_modes_witness :
    resultRun ⟨200, [1, 2]⟩ true true = ResultOutcome.assertionError ∧
    resultRun ⟨200, [1, 2]⟩ false true = ResultOutcome.bytesValue [1, 2] ∧
    resultRun ⟨200, [1, 2]⟩ true false = ResultOutcome.jsonValue [1, 2] ∧
    resultRun ⟨200, [1, 2]⟩ false false = ResultOutcome.textValue [1, 2] := by
  refine ⟨(c9_result_modes ⟨200, [1, 2]⟩ true true).1 rfl rfl,
    ((c9_result_modes ⟨200, [1, 2]⟩ false true).2 (by decide)).2.1 rfl rfl,
    ((c9_result_modes ⟨200, [1, 2]⟩ true false).2 (by decide)).1 rfl rfl,
    ((c9_result_modes ⟨200, [1, 2]⟩ false false).2 (by decide)).2.2 rfl rfl⟩

/-- C10: buffered-mode demultiplex never reads out of bounds: whenever
the current full header declares a length greater than the number of
bytes remaining after it (so it is the last full header), the helper
yields exactly those remaining bytes as a truncated final payload
(Python slicing clamps, as does `List.take`) and then terminates
without error. -/
theorem c10_truncated_final_payload (buf : List Nat)
    (h8 : 8 ≤ buf.length)
    (hover : (buf.drop 8).length < (unpackBxxxLFrom buf).2) :
    mbufWalk buf = [buf.drop 8] := by
  rw [mbufWalk, if_pos h8]
  have h1 : (buf.drop 8).take (unpackBxxxLFrom buf).2 = buf.drop 8 :=
    List.take_of_length_le (le_of_lt hover)
  have h2 : buf.drop (8 + (unpackBxxxLFrom buf).2) = [] := by
    rw [← List.drop_drop]
    exact List.drop_eq_nil_of_le (le_of_lt hover)
  rw [h1, h2, mbufWalk_nil_of_short [] (by simp)]

/-- Witness for C10 at a concrete buffer whose header declares 9 bytes
with only 2 present. -/
theorem c10_truncated_final_payload_witness :
    mbufWalk [1, 0, 0, 0, 0, 0, 0, 9, 5, 6] = [[5, 6]] := by
  have h := c10_truncated_final_payload [1, 0, 0, 0, 0, 0, 0, 9, 5, 6]
    (by decide) (by decide)
  simpa using h

end AioDockerPy
